import Mathlib

/-!
# Verification of the peetleAI timeline-synthesis pipeline

A shallow embedding, in Lean 4, of the timing and composition logic of the
peetleAI video backend:

* the Word Timing Estimator (`createWordTimingsFromScript`,
  backend/src/services/video.ts, lines 327-386),
* the Audio Timeline Assembler loop (`generateDialogueSpeech`,
  backend/src/services/elevenlabs.ts, lines 312-408),
* the subtitle-timing parser and character overlay planner
  (`parseSubtitleTimings` / `createCharacterOverlayFilters`,
  video.ts lines 527-676),
* the image-placeholder window planner (`parseImagePlaceholderTimings`,
  video.ts lines 693-773),
* the duration probers (`getAudioDuration` in elevenlabs.ts lines 410-420 and
  in video.ts lines 678-691),
* the SRT time formatter/parser (`formatTime`, video.ts lines 519-525, and the
  regex arithmetic of lines 546-549),
* the effectful skeleton of `createVideoFromAudio` / `createVideo`
  (video.ts lines 48-255), with the filesystem made explicit.

JavaScript numbers are modelled by exact rationals (`ℚ`): the specification's
claims are all stated "floating-point rounding aside".  Strings are modelled by
Lean `String`; where the source manipulates strings through regexes the
corresponding character-level operation is implemented structurally so that
concrete instances are kernel-computable.
-/

set_option autoImplicit false

/-! ## Word Timing Estimator (video.ts `createWordTimingsFromScript`) -/

/-- One dialogue line with its interval on the combined track.
Mirrors the element type of the `dialogueSegments` parameter
`{ start: number; end: number; speaker: string; text: string; imagePlaceholder?: string }`
(video.ts line 327).  The JS field `end` is called `stop` here (`end` is a Lean
keyword). -/
structure DialogueSegment where
  start : ℚ
  stop : ℚ
  speaker : String
  text : String
  imagePlaceholder : Option String := none
deriving DecidableEq, Repr

/-- A word caption entry, the element type of the `wordSubtitles` array built by
`createWordTimingsFromScript` (video.ts line 334). -/
structure WordToken where
  start : ℚ
  stop : ℚ
  text : String
  speaker : String
  imagePlaceholder : Option String
deriving DecidableEq, Repr, Inhabited

/-- Characters kept by the cleaning regex `word.replace(/[^\w!?]/g, '')`
(video.ts line 345): JS `\w` is `[A-Za-z0-9_]`, and `!`/`?` are kept. -/
def isKeptChar (c : Char) : Bool :=
  c.isAlphanum || c = '_' || c = '!' || c = '?'

/-- `word.replace(/[^\w!?]/g, '').trim()` (video.ts line 345): drop every
character outside `[A-Za-z0-9_!?]`.  (No whitespace survives the replace, so
the trailing `.trim()` is the identity.) -/
def cleanWord (w : String) : String :=
  String.mk (w.toList.filter isKeptChar)

/-- `segment.text.trim().split(/\s+/).filter(word => word.length > 0)`
(video.ts line 338): split on runs of whitespace and drop empty pieces.
Implemented structurally over the character list so concrete instances
compute in the kernel; `acc` holds the current in-progress word reversed. -/
def splitWordsAux : List Char → List Char → List String
  | [], acc => if acc.isEmpty then [] else [String.mk acc.reverse]
  | c :: cs, acc =>
      if c.isWhitespace then
        if acc.isEmpty then splitWordsAux cs []
        else String.mk acc.reverse :: splitWordsAux cs []
      else splitWordsAux cs (c :: acc)

/-- The `words` array of video.ts line 338. -/
def splitWords (text : String) : List String :=
  splitWordsAux text.toList []

/-- The `cleanWords` array (video.ts lines 343-346): clean each word, then
remove the strings that became empty. -/
def cleanWordsOf (text : String) : List String :=
  ((splitWords text).map cleanWord).filter (fun w => w ≠ "")

/-- `averageWordDuration = segmentDuration / cleanWords.length`
(video.ts line 350).  (`baseTime` in the weight formula, line 355.) -/
def baseDurationOf (seg : DialogueSegment) : ℚ :=
  (seg.stop - seg.start) / ((cleanWordsOf seg.text).length : ℚ)

/-- The `wordDurations` array (video.ts lines 354-358):
`lengthFactor = Math.min(word.length / 6, 1.5)` and
`baseTime * (0.7 + lengthFactor * 0.6)`. -/
def rawWordDurations (seg : DialogueSegment) : List ℚ :=
  (cleanWordsOf seg.text).map (fun w =>
    baseDurationOf seg * (7/10 + min ((w.length : ℚ) / 6) (3/2) * (6/10)))

/-- `scaleFactor = segmentDuration / totalCalculatedDuration` and
`normalizedDurations = wordDurations.map(d => d * scaleFactor)`
(video.ts lines 361-363). -/
def normalizedWordDurations (seg : DialogueSegment) : List ℚ :=
  (rawWordDurations seg).map
    (fun d => d * ((seg.stop - seg.start) / (rawWordDurations seg).sum))

/-- The word-timing loop of video.ts lines 366-382: lay the cleaned words
end-to-end from `currentTime`, attaching the segment's `imagePlaceholder` only
to the word at index 0. -/
def layTokens (seg : DialogueSegment) :
    List String → List ℚ → ℚ → ℕ → List WordToken
  | [], _, _, _ => []
  | _ :: _, [], _, _ => []
  | w :: ws, d :: ds, currentTime, i =>
      { start := currentTime
        stop := currentTime + d
        text := w
        speaker := seg.speaker
        imagePlaceholder := if i = 0 then seg.imagePlaceholder else none }
        :: layTokens seg ws ds (currentTime + d) (i + 1)

/-- Word tokens contributed by one segment (the body of the `for (const segment
of dialogueSegments)` loop, video.ts lines 336-383).  The `continue` for
`words.length === 0` is the `if`; a segment whose words all clean to empty
contributes nothing because `layTokens` recurses on the empty `cleanWords`. -/
def tokensOfSegment (seg : DialogueSegment) : List WordToken :=
  if splitWords seg.text = [] then []
  else layTokens seg (cleanWordsOf seg.text) (normalizedWordDurations seg) seg.start 0

/-- `createWordTimingsFromScript` (video.ts lines 327-386): concatenate the
tokens of every segment in order. -/
def createWordTimingsFromScript (dialogueSegments : List DialogueSegment) : List WordToken :=
  dialogueSegments.flatMap tokensOfSegment

/-! ### Basic lemmas about `layTokens` -/

theorem layTokens_length (seg : DialogueSegment) :
    ∀ (ws : List String) (ds : List ℚ) (c : ℚ) (i : ℕ),
      ws.length = ds.length → (layTokens seg ws ds c i).length = ws.length
  | [], _, _, _, _ => by simp [layTokens]
  | _ :: _, [], _, _, h => by simp at h
  | w :: ws, d :: ds, c, i, h => by
      simp only [layTokens, List.length_cons]
      rw [layTokens_length seg ws ds (c + d) (i + 1) (by simpa using h)]

theorem layTokens_chain (seg : DialogueSegment) :
    ∀ (ws : List String) (ds : List ℚ) (c : ℚ) (i : ℕ),
      List.Chain' (fun a b => a.stop = b.start) (layTokens seg ws ds c i)
  | [], _, _, _ => by simp [layTokens]
  | _ :: _, [], _, _ => by simp [layTokens]
  | w :: ws, d :: ds, c, i => by
      rw [layTokens, List.chain'_cons']
      refine ⟨?_, layTokens_chain seg ws ds (c + d) (i + 1)⟩
      intro b hb
      cases ws with
      | nil => simp [layTokens] at hb
      | cons w' ws' =>
        cases ds with
        | nil => simp [layTokens] at hb
        | cons d' ds' =>
          simp only [layTokens, List.head?_cons, Option.mem_def, Option.some.injEq] at hb
          subst hb; rfl

theorem layTokens_sum (seg : DialogueSegment) :
    ∀ (ws : List String) (ds : List ℚ) (c : ℚ) (i : ℕ),
      ws.length = ds.length →
      ((layTokens seg ws ds c i).map (fun t => t.stop - t.start)).sum = ds.sum
  | [], [], _, _, _ => by simp [layTokens]
  | [], _ :: _, _, _, h => by simp at h
  | _ :: _, [], _, _, h => by simp at h
  | w :: ws, d :: ds, c, i, h => by
      simp only [layTokens, List.map_cons, List.sum_cons]
      rw [layTokens_sum seg ws ds (c + d) (i + 1) (by simpa using h)]
      ring

theorem layTokens_head_start (seg : DialogueSegment) (w : String) (ws : List String)
    (d : ℚ) (ds : List ℚ) (c : ℚ) (i : ℕ) :
    (layTokens seg (w :: ws) (d :: ds) c i).head?.map WordToken.start = some c := by
  simp [layTokens]

theorem list_sum_map_mul (l : List ℚ) (r : ℚ) :
    (l.map (fun x => x * r)).sum = l.sum * r := by
  induction l with
  | nil => simp
  | cons a l ih => simp [ih]; ring

/-! ### C1, C4, C7: properties of the Word Timing Estimator -/

theorem cleanWordsOf_ne_nil_of (seg : DialogueSegment) (hw : cleanWordsOf seg.text ≠ []) :
    splitWords seg.text ≠ [] := by
  intro h
  exact hw (by simp [cleanWordsOf, h])

theorem tokensOfSegment_eq (seg : DialogueSegment) (hw : cleanWordsOf seg.text ≠ []) :
    tokensOfSegment seg
      = layTokens seg (cleanWordsOf seg.text) (normalizedWordDurations seg) seg.start 0 := by
  rw [tokensOfSegment, if_neg (cleanWordsOf_ne_nil_of seg hw)]

theorem normalizedWordDurations_length (seg : DialogueSegment) :
    (cleanWordsOf seg.text).length = (normalizedWordDurations seg).length := by
  simp [normalizedWordDurations, rawWordDurations]

theorem rawWordDurations_sum_pos (seg : DialogueSegment)
    (hw : cleanWordsOf seg.text ≠ []) (hd : 0 < seg.stop - seg.start) :
    0 < (rawWordDurations seg).sum := by
  apply List.sum_pos
  · intro x hx
    simp only [rawWordDurations, List.mem_map] at hx
    obtain ⟨w, hwmem, rfl⟩ := hx
    have hbase : 0 < baseDurationOf seg := by
      apply div_pos hd
      exact_mod_cast List.length_pos.mpr hw
    have hmin : (0:ℚ) ≤ min ((w.length : ℚ) / 6) (3/2) :=
      le_min (by positivity) (by norm_num)
    have hfac : (0:ℚ) < 7/10 + min ((w.length : ℚ) / 6) (3/2) * (6/10) := by linarith
    exact mul_pos hbase hfac
  · simpa [rawWordDurations] using hw

theorem normalizedWordDurations_sum (seg : DialogueSegment)
    (hw : cleanWordsOf seg.text ≠ []) (hd : 0 < seg.stop - seg.start) :
    (normalizedWordDurations seg).sum = seg.stop - seg.start := by
  have hpos := rawWordDurations_sum_pos seg hw hd
  rw [normalizedWordDurations, list_sum_map_mul]
  field_simp

/-- C1: for every dialogue segment with at least one cleaned word token and
positive duration, the Word Timing Estimator lays the word tokens end-to-end
starting at `segment.start`, with `token[i].end = token[i+1].start` for all
consecutive `i`, and the token durations sum exactly to
`segment.end - segment.start` (exact-rational model of the floating-point
computation; a zero-width segment is excluded because there the JS source
divides zero by zero and produces NaN timings). -/
theorem c1_word_token_partition (seg : DialogueSegment)
    (hw : cleanWordsOf seg.text ≠ [])
    (hd : 0 < seg.stop - seg.start) :
    (tokensOfSegment seg).head?.map WordToken.start = some seg.start ∧
    (∀ (i : ℕ), i + 1 < (tokensOfSegment seg).length →
        ((tokensOfSegment seg).getD i default).stop
          = ((tokensOfSegment seg).getD (i + 1) default).start) ∧
    ((tokensOfSegment seg).map (fun t => t.stop - t.start)).sum
      = seg.stop - seg.start := by
  have htos := tokensOfSegment_eq seg hw
  have hlen := normalizedWordDurations_length seg
  refine ⟨?_, ?_, ?_⟩
  · rw [htos]
    obtain ⟨w, ws, hcw⟩ := List.exists_cons_of_ne_nil hw
    have : normalizedWordDurations seg ≠ [] := by
      intro hnil
      rw [hnil, hcw] at hlen
      simp at hlen
    obtain ⟨d, ds, hnd⟩ := List.exists_cons_of_ne_nil this
    rw [hcw, hnd]
    exact layTokens_head_start seg w ws d ds seg.start 0
  · intro i hi
    rw [htos] at hi ⊢
    have hchain := List.chain'_iff_get.mp
      (layTokens_chain seg (cleanWordsOf seg.text) (normalizedWordDurations seg) seg.start 0)
      i (by omega)
    rw [List.getD_eq_getElem _ _ (by omega), List.getD_eq_getElem _ _ (by omega)]
    simpa [List.get_eq_getElem] using hchain
  · rw [htos, layTokens_sum seg _ _ _ _ hlen,
      normalizedWordDurations_sum seg hw hd]

/-- Concrete segment used to witness C1. -/
def c1Seg : DialogueSegment :=
  { start := 0, stop := 2, speaker := "Peter", text := "hi there now" }

theorem c1_word_token_partition_witness :
    (cleanWordsOf c1Seg.text ≠ [] ∧ (0:ℚ) < c1Seg.stop - c1Seg.start) ∧
    ((tokensOfSegment c1Seg).head?.map WordToken.start = some c1Seg.start ∧
     (∀ (i : ℕ), i + 1 < (tokensOfSegment c1Seg).length →
         ((tokensOfSegment c1Seg).getD i default).stop
           = ((tokensOfSegment c1Seg).getD (i + 1) default).start) ∧
     ((tokensOfSegment c1Seg).map (fun t => t.stop - t.start)).sum
       = c1Seg.stop - c1Seg.start) :=
  ⟨⟨by decide, by norm_num [c1Seg]⟩,
   c1_word_token_partition c1Seg (by decide) (by norm_num [c1Seg])⟩

/-- Concrete segment used for C4: the single word has 9 letters, so
`lengthFactor = min(9/6, 1.5) = 1.5` and the multiplier is
`0.7 + 1.5*0.6 = 1.6`. -/
def c4Seg : DialogueSegment :=
  { start := 0, stop := 1, speaker := "Peter", text := "translate" }

theorem c4Seg_raw : rawWordDurations c4Seg = [8/5] ∧ baseDurationOf c4Seg = 1 := by
  have hc : cleanWordsOf c4Seg.text = ["translate"] := by decide
  have hl : ("translate" : String).length = 9 := by decide
  have hb : baseDurationOf c4Seg = 1 := by
    rw [baseDurationOf, hc]
    norm_num [c4Seg]
  refine ⟨?_, hb⟩
  rw [rawWordDurations, hc]
  simp only [List.map_cons, List.map_nil, hb, hl]
  norm_num [min_def]

/-- C4 counterexample: the raw weight is NOT capped at `1.3 × base`.  In
`c4Seg` the base duration is 1 and the single raw weight is `1.6`, which
exceeds `1.3 × 1`.  (The weight formula itself tops out at
`0.7 + 1.5·0.6 = 1.6` times base; the `1.3×` figure comes from a stale code
comment.) -/
theorem c4_counterexample :
    baseDurationOf c4Seg = 1 ∧
    (8/5 : ℚ) ∈ rawWordDurations c4Seg ∧
    ¬ ((8/5 : ℚ) ≤ (13/10) * baseDurationOf c4Seg) := by
  obtain ⟨hr, hb⟩ := c4Seg_raw
  refine ⟨hb, by rw [hr]; simp, by rw [hb]; norm_num⟩

/-- C4 (amended): every raw word weight equals
`base * (0.7 + 0.6 * min(len/6, 1.5))` (that is the definition of
`rawWordDurations`, read off the source), and for nonnegative base it is
bounded between `0.7 × base` and `1.6 × base` — not `1.3 × base`. -/
theorem c4_weight_formula_and_cap (seg : DialogueSegment) (d : ℚ)
    (hd : d ∈ rawWordDurations seg) (hb : 0 ≤ baseDurationOf seg) :
    (7/10) * baseDurationOf seg ≤ d ∧ d ≤ (8/5) * baseDurationOf seg := by
  simp only [rawWordDurations, List.mem_map] at hd
  obtain ⟨w, hwmem, rfl⟩ := hd
  have h0 : (0:ℚ) ≤ min ((w.length : ℚ) / 6) (3/2) :=
    le_min (by positivity) (by norm_num)
  have h1 : min ((w.length : ℚ) / 6) (3/2) ≤ 3/2 := min_le_right _ _
  constructor
  · nlinarith [mul_nonneg hb h0]
  · nlinarith [mul_nonneg hb (by linarith : (0:ℚ) ≤ 9/10 - min ((w.length : ℚ) / 6) (3/2) * (6/10))]

theorem c4_weight_formula_and_cap_witness :
    ((8/5 : ℚ) ∈ rawWordDurations c4Seg ∧ 0 ≤ baseDurationOf c4Seg) ∧
    ((7/10) * baseDurationOf c4Seg ≤ (8/5 : ℚ) ∧
      (8/5 : ℚ) ≤ (8/5) * baseDurationOf c4Seg) :=
  ⟨⟨by rw [c4Seg_raw.1]; simp, by rw [c4Seg_raw.2]; norm_num⟩,
   c4_weight_formula_and_cap c4Seg (8/5)
     (by rw [c4Seg_raw.1]; simp) (by rw [c4Seg_raw.2]; norm_num)⟩

/-- C7: a dialogue segment whose every token becomes empty after cleaning
(for example the text `"..."`) yields zero word tokens, and removing it from
the segment list leaves every other segment's tokens — hence all their
start/end times — unchanged.  The JS division by `cleanWords.length = 0`
cannot crash: it produces `Infinity`/`NaN` values that are never used because
the token-emitting loop runs zero times. -/
theorem c7_degenerate_segment (xs ys : List DialogueSegment) (seg : DialogueSegment)
    (h : cleanWordsOf seg.text = []) :
    tokensOfSegment seg = [] ∧
    createWordTimingsFromScript (xs ++ seg :: ys)
      = createWordTimingsFromScript (xs ++ ys) := by
  have htok : tokensOfSegment seg = [] := by
    rw [tokensOfSegment]
    split
    · rfl
    · rw [h]
      rfl
  refine ⟨htok, ?_⟩
  simp [createWordTimingsFromScript, List.flatMap_append, List.flatMap_cons, htok]

/-- Degenerate segment used to witness C7: its text is all punctuation. -/
def c7Seg : DialogueSegment :=
  { start := 5, stop := 7, speaker := "Stewie", text := "..." }

theorem c7_degenerate_segment_witness :
    cleanWordsOf c7Seg.text = [] ∧
    (tokensOfSegment c7Seg = [] ∧
      createWordTimingsFromScript ([c1Seg] ++ c7Seg :: [c4Seg])
        = createWordTimingsFromScript ([c1Seg] ++ [c4Seg])) :=
  ⟨by decide, c7_degenerate_segment [c1Seg] [c4Seg] c7Seg (by decide)⟩

/-! ## Audio Timeline Assembler (elevenlabs.ts `generateDialogueSpeech`)

The per-line loop of elevenlabs.ts lines 326-375 pushes
`{ start: currentTime, end: currentTime + actualDuration }` for each dialogue
line and then advances `currentTime += actualDuration + 0.8` ("Add pause
between speakers").  Intervals are modelled as `(start, end)` pairs driven by
the list of probed durations. -/

/-- The timeline loop with explicit `currentTime` accumulator
(elevenlabs.ts lines 323-375; the same loop appears in every superseded
generation of the service, always with gap `0.8`). -/
def assembleFrom (currentTime : ℚ) : List ℚ → List (ℚ × ℚ)
  | [] => []
  | d :: ds => (currentTime, currentTime + d) :: assembleFrom (currentTime + d + 4/5) ds

/-- `subtitleSegments` intervals produced by `generateDialogueSpeech` for the
given probed durations (`currentTime` starts at 0, elevenlabs.ts line 323). -/
def assembleTimeline (durs : List ℚ) : List (ℚ × ℚ) :=
  assembleFrom 0 durs

/-- Duration of the mixed combined track: `combineAudioSegmentsWithTiming`
delays clip `i` by `interval[i].start` and mixes with
`amix=...:duration=longest` (elevenlabs.ts line 459), so the combined duration
is the largest interval end. -/
def combinedMixDuration (durs : List ℚ) : ℚ :=
  ((assembleTimeline durs).map Prod.snd).foldr max 0

theorem assembleFrom_length :
    ∀ (ds : List ℚ) (c : ℚ), (assembleFrom c ds).length = ds.length
  | [], _ => rfl
  | d :: ds, c => by
      simp only [assembleFrom, List.length_cons]
      rw [assembleFrom_length ds]

theorem assembleFrom_getD_stop :
    ∀ (ds : List ℚ) (c : ℚ) (i : ℕ), i < ds.length →
      ((assembleFrom c ds).getD i (0, 0)).2
        = ((assembleFrom c ds).getD i (0, 0)).1 + ds.getD i 0
  | [], _, i, h => by simp at h
  | d :: ds, c, 0, _ => by simp [assembleFrom]
  | d :: ds, c, i + 1, h => by
      simp only [assembleFrom, List.getD_cons_succ]
      exact assembleFrom_getD_stop ds (c + d + 4/5) i (by simpa using h)

theorem assembleFrom_getD_chain :
    ∀ (ds : List ℚ) (c : ℚ) (i : ℕ), i + 1 < ds.length →
      ((assembleFrom c ds).getD (i + 1) (0, 0)).1
        = ((assembleFrom c ds).getD i (0, 0)).2 + 4/5
  | [], _, i, h => by simp at h
  | [d], _, i, h => by simp at h
  | d :: d' :: ds, c, 0, _ => by simp [assembleFrom]
  | d :: d' :: ds, c, i + 1, h => by
      simp only [assembleFrom, List.getD_cons_succ]
      have := assembleFrom_getD_chain (d' :: ds) (c + d + 4/5) i (by simpa using h)
      simpa [assembleFrom] using this

theorem assembleTimeline_example :
    assembleTimeline [2, 7/2] = [(0, 2), (14/5, 63/10)] := by
  simp only [assembleTimeline, assembleFrom]
  norm_num

/-- C2: the Assembler's intervals start at 0, satisfy
`interval[i].end = interval[i].start + d_i` and
`interval[i+1].start = interval[i].end + 0.8`, and on durations `[2.0, 3.5]`
they are `[(0, 2.0), (2.8, 6.3)]` with a combined (mixed) duration of 6.3s. -/
theorem c2_monotonic_timeline (durs : List ℚ) (i : ℕ)
    (hne : durs ≠ []) (hi : i + 1 < durs.length) :
    (assembleTimeline durs).length = durs.length ∧
    (assembleTimeline durs).head?.map Prod.fst = some 0 ∧
    ((assembleTimeline durs).getD i (0, 0)).2
      = ((assembleTimeline durs).getD i (0, 0)).1 + durs.getD i 0 ∧
    ((assembleTimeline durs).getD (i + 1) (0, 0)).1
      = ((assembleTimeline durs).getD i (0, 0)).2 + 4/5 ∧
    ((assembleTimeline durs).getD (i + 1) (0, 0)).2
      = ((assembleTimeline durs).getD (i + 1) (0, 0)).1 + durs.getD (i + 1) 0 ∧
    assembleTimeline [2, 7/2] = [(0, 2), (14/5, 63/10)] ∧
    combinedMixDuration [2, 7/2] = 63/10 := by
  refine ⟨assembleFrom_length durs 0, ?_, ?_, ?_, ?_, assembleTimeline_example, ?_⟩
  · obtain ⟨d, ds, rfl⟩ := List.exists_cons_of_ne_nil hne
    simp [assembleTimeline, assembleFrom]
  · exact assembleFrom_getD_stop durs 0 i (by omega)
  · exact assembleFrom_getD_chain durs 0 i hi
  · exact assembleFrom_getD_stop durs 0 (i + 1) hi
  · rw [combinedMixDuration, assembleTimeline_example]
    norm_num [max_def]

theorem c2_monotonic_timeline_witness :
    (([2, 7/2] : List ℚ) ≠ [] ∧ 0 + 1 < ([2, 7/2] : List ℚ).length) ∧
    ((assembleTimeline [2, 7/2]).length = ([2, 7/2] : List ℚ).length ∧
     (assembleTimeline [2, 7/2]).head?.map Prod.fst = some 0 ∧
     ((assembleTimeline [2, 7/2]).getD 0 (0, 0)).2
       = ((assembleTimeline [2, 7/2]).getD 0 (0, 0)).1 + ([2, 7/2] : List ℚ).getD 0 0 ∧
     ((assembleTimeline [2, 7/2]).getD (0 + 1) (0, 0)).1
       = ((assembleTimeline [2, 7/2]).getD 0 (0, 0)).2 + 4/5 ∧
     ((assembleTimeline [2, 7/2]).getD (0 + 1) (0, 0)).2
       = ((assembleTimeline [2, 7/2]).getD (0 + 1) (0, 0)).1 + ([2, 7/2] : List ℚ).getD (0 + 1) 0 ∧
     assembleTimeline [2, 7/2] = [(0, 2), (14/5, 63/10)] ∧
     combinedMixDuration [2, 7/2] = 63/10) :=
  ⟨⟨by simp, by simp⟩, c2_monotonic_timeline [2, 7/2] 0 (by simp) (by simp)⟩

/-! ## Duration probers (C6)

elevenlabs.ts lines 410-420 and video.ts lines 678-691 both run
`ffprobe ... -show_entries format=duration` and `parseFloat` the output.  A
probe outcome is modelled as `Option ℚ`: `none` when the subprocess fails or
the output does not parse (`isNaN`). -/

/-- elevenlabs.ts `getAudioDuration` (lines 410-420): on failure or unparsable
output it returns the fixed fallback `3.0` ("fallback to 3 seconds if parsing
fails"). -/
def elevenlabsGetAudioDuration (probe : Option ℚ) : ℚ :=
  probe.getD 3

/-- video.ts `getAudioDuration` (lines 678-691): on failure or unparsable
output it throws (`Failed to get audio duration`), failing the render. -/
def videoGetAudioDuration (probe : Option ℚ) : Except String ℚ :=
  match probe with
  | some d => Except.ok d
  | none => Except.error "Failed to get audio duration"

/-- The Assembler's interval computation as driven by per-clip probe results:
`generateDialogueSpeech` feeds each clip through the *fallback* prober
(elevenlabs.ts line 363 calls `this.getAudioDuration`, the lines 410-420
version). -/
def generateDialogueTimeline (probes : List (Option ℚ)) : List (ℚ × ℚ) :=
  assembleTimeline (probes.map elevenlabsGetAudioDuration)

/-- C6 counterexample: a failed probe does NOT fail the Assembler's interval
computation — the generation proceeds and the failed clip simply gets the
fixed fallback duration 3.0 (interval `(0, 3)`). -/
theorem c6_counterexample :
    generateDialogueTimeline [none] = [(0, 3)] ∧
    ¬ (generateDialogueTimeline [none] = []) := by
  have h : generateDialogueTimeline [none] = [(0, 3)] := by
    simp only [generateDialogueTimeline, assembleTimeline, List.map_cons, List.map_nil,
      elevenlabsGetAudioDuration, Option.getD_none, assembleFrom]
    norm_num
  exact ⟨h, by rw [h]; simp⟩

/-- C6 (amended): the strict/fallback placement is the reverse of the claim.
The Assembler's interval computation consumes the fallback prober — a `none`
probe yields duration exactly 3.0 in its interval and the timeline is still
produced in full — while the strict prober (error on failure) is the one in
the video-render path. -/
theorem c6_probe_failure_policy (probes : List (Option ℚ)) (i : ℕ)
    (hi : i < probes.length) (hnone : probes.getD i (some 0) = none) :
    elevenlabsGetAudioDuration none = 3 ∧
    (∀ d : ℚ, elevenlabsGetAudioDuration (some d) = d) ∧
    videoGetAudioDuration none = Except.error "Failed to get audio duration" ∧
    (∀ d : ℚ, videoGetAudioDuration (some d) = Except.ok d) ∧
    (generateDialogueTimeline probes).length = probes.length ∧
    ((generateDialogueTimeline probes).getD i (0, 0)).2
      = ((generateDialogueTimeline probes).getD i (0, 0)).1 + 3 := by
  refine ⟨rfl, fun d => rfl, rfl, fun d => rfl, ?_, ?_⟩
  · rw [generateDialogueTimeline, assembleTimeline, assembleFrom_length, List.length_map]
  · have hstop := assembleFrom_getD_stop (probes.map elevenlabsGetAudioDuration) 0 i
      (by simpa using hi)
    rw [generateDialogueTimeline, assembleTimeline]
    rw [hstop]
    congr 1
    rw [List.getD_eq_getElem _ _ (by simpa using hi), List.getElem_map,
      ← List.getD_eq_getElem _ (some 0) hi, hnone]
    rfl

theorem c6_probe_failure_policy_witness :
    (0 < ([none] : List (Option ℚ)).length ∧
      ([none] : List (Option ℚ)).getD 0 (some 0) = none) ∧
    (elevenlabsGetAudioDuration none = 3 ∧
     (∀ d : ℚ, elevenlabsGetAudioDuration (some d) = d) ∧
     videoGetAudioDuration none = Except.error "Failed to get audio duration" ∧
     (∀ d : ℚ, videoGetAudioDuration (some d) = Except.ok d) ∧
     (generateDialogueTimeline [none]).length = ([none] : List (Option ℚ)).length ∧
     ((generateDialogueTimeline [none]).getD 0 (0, 0)).2
       = ((generateDialogueTimeline [none]).getD 0 (0, 0)).1 + 3) :=
  ⟨⟨by simp, by simp⟩, c6_probe_failure_policy [none] 0 (by simp) (by simp)⟩

/-! ## Subtitle-timing parser and character overlay planner (C3)

`parseSubtitleTimings` (video.ts lines 527-594) walks the SRT blocks in order.
A block is modelled by its parsed time window plus the result of the speaker
regex `/^(Peter|Stewie):/` on its text line (`none` when the regex does not
match; blocks whose time line fails to parse leave the state untouched exactly
like speaker-less blocks, so they are covered by `speaker := none`). -/

/-- The two dialogue characters matched by `/^(Peter|Stewie):/`. -/
inductive Speaker where
  | Peter
  | Stewie
deriving DecidableEq, Repr

/-- One SRT block as seen by `parseSubtitleTimings`: parsed start/end time and
the speaker prefix match. -/
structure SrtBlock where
  start : ℚ
  stop : ℚ
  speaker : Option Speaker
deriving DecidableEq, Repr

/-- One parsed speaking segment (`{ speaker, start, end }`, video.ts line 531). -/
structure CharacterTiming where
  speaker : Speaker
  start : ℚ
  stop : ℚ
deriving DecidableEq, Repr

/-- The block loop of video.ts lines 538-587 with the mutable
`currentSpeaker`/`currentSegmentStart`/`currentSegmentEnd` trio made an
explicit state: a same-speaker block extends the open segment's end
("Same speaker - extend the current segment"), a different speaker flushes the
open segment and starts a new one, and the open segment is flushed at the end
of the input. -/
def parseLoop : Option (Speaker × ℚ × ℚ) → List SrtBlock → List CharacterTiming
  | none, [] => []
  | some (cs, s, e), [] => [{ speaker := cs, start := s, stop := e }]
  | st, b :: bs =>
      match b.speaker with
      | none => parseLoop st bs
      | some sp =>
          match st with
          | none => parseLoop (some (sp, b.start, b.stop)) bs
          | some (cs, s, e) =>
              if cs = sp then
                parseLoop (some (cs, s, b.stop)) bs
              else
                { speaker := cs, start := s, stop := e }
                  :: parseLoop (some (sp, b.start, b.stop)) bs

/-- `parseSubtitleTimings` (video.ts lines 527-594). -/
def parseSubtitleTimings (blocks : List SrtBlock) : List CharacterTiming :=
  parseLoop none blocks

/-- One character overlay window emitted by `createCharacterOverlayFilters`
(video.ts lines 596-676): `animationStart = max(0, timing.start - 0.2)`,
`animationEnd = timing.end + 0.6`, `slideInEnd = animationStart + 0.8`,
`slideOutStart = animationEnd - 0.8`. -/
structure OverlayWindow where
  speaker : Speaker
  animationStart : ℚ
  slideInEnd : ℚ
  slideOutStart : ℚ
  animationEnd : ℚ
deriving DecidableEq, Repr

/-- `createCharacterOverlayFilters` emits exactly one overlay (with its scaled
copy of the character image) per parsed timing; both the Stewie branch and the
Peter branch compute the same window parameters (video.ts lines 610-670). -/
def characterOverlayWindows (timings : List CharacterTiming) : List OverlayWindow :=
  timings.map (fun t =>
    { speaker := t.speaker
      animationStart := max 0 (t.start - 1/5)
      slideInEnd := max 0 (t.start - 1/5) + 4/5
      slideOutStart := t.stop + 3/5 - 4/5
      animationEnd := t.stop + 3/5 })

/-- Two consecutive dialogue lines, both spoken by Peter. -/
def c3Blocks : List SrtBlock :=
  [{ start := 0, stop := 1, speaker := some Speaker.Peter },
   { start := 1, stop := 2, speaker := some Speaker.Peter }]

/-- C3 counterexample: the planner does NOT emit one character overlay window
per timeline interval.  Two consecutive same-speaker blocks are merged by
`parseSubtitleTimings` into a single timing spanning both, so only one
overlay window is produced for the two intervals. -/
theorem c3_counterexample :
    parseSubtitleTimings c3Blocks
      = [{ speaker := Speaker.Peter, start := 0, stop := 2 }] ∧
    (characterOverlayWindows (parseSubtitleTimings c3Blocks)).length ≠ c3Blocks.length := by
  exact ⟨rfl, by decide⟩

theorem parseLoop_length_alternating :
    ∀ (blocks : List SrtBlock) (cs : Speaker) (s e : ℚ),
      (∀ b ∈ blocks, b.speaker.isSome) →
      List.Chain' (fun a b => a.speaker ≠ b.speaker) blocks →
      (∀ b ∈ blocks.head?, b.speaker ≠ some cs) →
      (parseLoop (some (cs, s, e)) blocks).length = blocks.length + 1
  | [], cs, s, e, _, _, _ => rfl
  | b :: bs, cs, s, e, hall, halt, hhead => by
      have hbsome : b.speaker.isSome := hall b (by simp)
      obtain ⟨sp, hsp⟩ := Option.isSome_iff_exists.mp hbsome
      have hne : ¬ (cs = sp) := by
        intro h
        exact hhead b (by simp) (by rw [hsp, h])
      rw [List.chain'_cons'] at halt
      have hrec := parseLoop_length_alternating bs sp b.start b.stop
        (fun x hx => hall x (List.mem_cons_of_mem b hx))
        halt.2
        (fun x hx => by
          have := halt.1 x hx
          rw [hsp] at this
          exact fun hcontra => this (by rw [hcontra]))
      simp only [parseLoop, hsp, if_neg hne, List.length_cons]
      rw [hrec]

/-- C3 (amended): merging IS performed.  Two consecutive blocks with the same
speaker parse identically to the single block spanning from the first's start
to the second's end (so one overlay window covers a whole same-speaker run of
dialogue lines), while for a block list whose speakers all parse and in which
adjacent speakers differ, `parseSubtitleTimings` keeps one timing per block
and the planner emits exactly one overlay window per timing. -/
theorem c3_overlay_window_merging (st : Option (Speaker × ℚ × ℚ))
    (b1 b2 : SrtBlock) (bs blocks : List SrtBlock) (sp : Speaker)
    (h1 : b1.speaker = some sp) (h2 : b2.speaker = some sp)
    (hall : ∀ b ∈ blocks, b.speaker.isSome)
    (halt : List.Chain' (fun a b => a.speaker ≠ b.speaker) blocks) :
    parseLoop st (b1 :: b2 :: bs)
      = parseLoop st ({ start := b1.start, stop := b2.stop, speaker := b1.speaker } :: bs) ∧
    (parseSubtitleTimings blocks).length = blocks.length ∧
    (characterOverlayWindows (parseSubtitleTimings blocks)).length
      = (parseSubtitleTimings blocks).length := by
  refine ⟨?_, ?_, by simp [characterOverlayWindows]⟩
  · cases st with
    | none => simp [parseLoop, h1, h2]
    | some t =>
      obtain ⟨cs, s, e⟩ := t
      by_cases hcs : cs = sp
      · simp [parseLoop, h1, h2, hcs]
      · simp [parseLoop, h1, h2, if_neg hcs]
  · cases blocks with
    | nil => rfl
    | cons b bs' =>
      have hbsome : b.speaker.isSome := hall b (by simp)
      obtain ⟨sp', hsp'⟩ := Option.isSome_iff_exists.mp hbsome
      rw [List.chain'_cons'] at halt
      have hrec := parseLoop_length_alternating bs' sp' b.start b.stop
        (fun x hx => hall x (List.mem_cons_of_mem b hx))
        halt.2
        (fun x hx => by
          have := halt.1 x hx
          rw [hsp'] at this
          exact fun hcontra => this (by rw [hcontra]))
      simp only [parseSubtitleTimings, parseLoop, hsp', List.length_cons]
      rw [hrec]

/-- Alternating-speaker block list used to witness C3's amended statement. -/
def c3AltBlocks : List SrtBlock :=
  [{ start := 0, stop := 1, speaker := some Speaker.Peter },
   { start := 1, stop := 2, speaker := some Speaker.Stewie }]

theorem c3_overlay_window_merging_witness :
    (({ start := 0, stop := 1, speaker := some Speaker.Peter } : SrtBlock).speaker
        = some Speaker.Peter ∧
      ({ start := 1, stop := 2, speaker := some Speaker.Peter } : SrtBlock).speaker
        = some Speaker.Peter ∧
      (∀ b ∈ c3AltBlocks, b.speaker.isSome) ∧
      List.Chain' (fun a b => a.speaker ≠ b.speaker) c3AltBlocks) ∧
    (parseLoop none
        ([{ start := 0, stop := 1, speaker := some Speaker.Peter },
          { start := 1, stop := 2, speaker := some Speaker.Peter }] : List SrtBlock)
      = parseLoop none
          [{ start := (0:ℚ), stop := 2, speaker := some Speaker.Peter }] ∧
    (parseSubtitleTimings c3AltBlocks).length = c3AltBlocks.length ∧
    (characterOverlayWindows (parseSubtitleTimings c3AltBlocks)).length
      = (parseSubtitleTimings c3AltBlocks).length) :=
  ⟨⟨rfl, rfl, by decide, by simp [c3AltBlocks, List.chain'_cons]⟩,
   c3_overlay_window_merging none
     { start := 0, stop := 1, speaker := some Speaker.Peter }
     { start := 1, stop := 2, speaker := some Speaker.Peter }
     [] c3AltBlocks Speaker.Peter rfl rfl (by decide)
     (by simp [c3AltBlocks, List.chain'_cons])⟩

/-! ## Image-placeholder window planner (C5)

`parseImagePlaceholderTimings` (video.ts lines 693-773).  The first pass
collects, from each SRT block carrying a `# IMAGE_PLACEHOLDER:` comment, a
segment `{ startTime, endTime: startTime, placeholder, imagePath? }` — the
trigger time, the placeholder name and the uploaded image path when one exists
on disk.  The list is then sorted by `startTime`, end times are assigned in a
second pass, and only segments with an actual image are returned.
(The `inputIndex` numbering of renderer inputs, lines 747-749, is omitted: it
does not affect any window time.) -/

/-- One image-placeholder segment (video.ts line 698). -/
structure PlaceholderSegment where
  startTime : ℚ
  endTime : ℚ
  placeholder : String
  imagePath : Option String
deriving DecidableEq, Repr, Inhabited

/-- First-pass element: a trigger is `(startTime, placeholder, imagePath?)`
and its segment starts with `endTime = startTime` ("We'll calculate the actual
end time in the next step", video.ts line 728). -/
def toPlaceholderSegment (x : ℚ × String × Option String) : PlaceholderSegment :=
  { startTime := x.1, endTime := x.1, placeholder := x.2.1, imagePath := x.2.2 }

/-- `imagePlaceholderSegments.sort((a, b) => a.startTime - b.startTime)`
(video.ts line 737): a stable sort by start time, modelled by insertion sort
(stability matters only for ties and matches the JS stable `Array.sort`). -/
def insertByStart (s : PlaceholderSegment) : List PlaceholderSegment → List PlaceholderSegment
  | [] => [s]
  | t :: ts => if s.startTime ≤ t.startTime then s :: t :: ts else t :: insertByStart s ts

def sortByStart : List PlaceholderSegment → List PlaceholderSegment
  | [] => []
  | s :: ss => insertByStart s (sortByStart ss)

/-- "Ensure minimum duration of 0.5 seconds" (video.ts lines 760-763). -/
def applyMinDuration (s : PlaceholderSegment) : PlaceholderSegment :=
  if s.endTime - s.startTime < 1/2 then { s with endTime := s.startTime + 1/2 } else s

/-- The second pass (video.ts lines 743-764): each segment ends where the next
one starts; the last one ends at the full audio duration; then the 0.5s
minimum is enforced. -/
def assignEndTimes (audioDuration : ℚ) : List PlaceholderSegment → List PlaceholderSegment
  | [] => []
  | [s] => [applyMinDuration { s with endTime := audioDuration }]
  | s :: t :: rest =>
      applyMinDuration { s with endTime := t.startTime }
        :: assignEndTimes audioDuration (t :: rest)

/-- `parseImagePlaceholderTimings` (video.ts lines 693-773): sort the trigger
segments, assign end times, and keep only segments with an uploaded image
(line 766). -/
def parseImagePlaceholderTimings (triggers : List (ℚ × String × Option String))
    (audioDuration : ℚ) : List PlaceholderSegment :=
  (assignEndTimes audioDuration (sortByStart (triggers.map toPlaceholderSegment))).filter
    (fun s => s.imagePath.isSome)

/-- Two placeholder triggers 0.3s apart, both with uploaded images. -/
def c5Triggers : List (ℚ × String × Option String) :=
  [(0, "IMAGE_1", some "img1.png"), (3/10, "IMAGE_2", some "img2.png")]

/-- C5 counterexample: with triggers at 0s and 0.3s (audio 10s long) the first
window is extended by the 0.5s minimum to `[0, 0.5]` while the second starts
at 0.3 — the two emitted image windows overlap on `(0.3, 0.5)`, contradicting
"no two emitted image overlay windows overlap". -/
theorem c5_counterexample :
    parseImagePlaceholderTimings c5Triggers 10
      = [{ startTime := 0, endTime := 1/2, placeholder := "IMAGE_1", imagePath := some "img1.png" },
         { startTime := 3/10, endTime := 10, placeholder := "IMAGE_2", imagePath := some "img2.png" }] ∧
    ¬ (((parseImagePlaceholderTimings c5Triggers 10).getD 0 default).endTime
        ≤ ((parseImagePlaceholderTimings c5Triggers 10).getD 1 default).startTime) := by
  have h : parseImagePlaceholderTimings c5Triggers 10
      = [{ startTime := 0, endTime := 1/2, placeholder := "IMAGE_1", imagePath := some "img1.png" },
         { startTime := 3/10, endTime := 10, placeholder := "IMAGE_2", imagePath := some "img2.png" }] := by
    norm_num [parseImagePlaceholderTimings, c5Triggers, toPlaceholderSegment,
      sortByStart, insertByStart, assignEndTimes, applyMinDuration, List.filter]
  refine ⟨h, ?_⟩
  rw [h]
  norm_num

theorem applyMinDuration_startTime (s : PlaceholderSegment) :
    (applyMinDuration s).startTime = s.startTime := by
  rw [applyMinDuration]
  split <;> rfl

theorem applyMinDuration_start_le_end (s : PlaceholderSegment) :
    (applyMinDuration s).startTime ≤ (applyMinDuration s).endTime := by
  rw [applyMinDuration]
  split
  · simp
  · next h =>
    push_neg at h
    linarith

theorem assignEndTimes_head_startTime (d : ℚ) (t : PlaceholderSegment)
    (rest : List PlaceholderSegment) :
    (assignEndTimes d (t :: rest)).head?.map PlaceholderSegment.startTime
      = some t.startTime := by
  cases rest with
  | nil => simp [assignEndTimes, applyMinDuration_startTime]
  | cons r rs => simp [assignEndTimes, applyMinDuration_startTime]

theorem assignEndTimes_start_le_end :
    ∀ (l : List PlaceholderSegment) (d : ℚ),
      ∀ s ∈ assignEndTimes d l, s.startTime ≤ s.endTime
  | [], _, s, hs => by simp [assignEndTimes] at hs
  | [t], d, s, hs => by
      simp only [assignEndTimes, List.mem_singleton] at hs
      subst hs
      exact applyMinDuration_start_le_end _
  | t :: u :: rest, d, s, hs => by
      rcases List.mem_cons.mp hs with rfl | hs'
      · exact applyMinDuration_start_le_end _
      · exact assignEndTimes_start_le_end (u :: rest) d s hs'

theorem assignEndTimes_chain :
    ∀ (l : List PlaceholderSegment) (d : ℚ),
      List.Chain' (fun a b => a.startTime + 1/2 ≤ b.startTime) l →
      List.Chain' (fun a b => a.endTime = b.startTime) (assignEndTimes d l)
  | [], _, _ => by simp [assignEndTimes]
  | [t], d, _ => by simp [assignEndTimes]
  | t :: u :: rest, d, hgap => by
      rw [List.chain'_cons'] at hgap
      have hgap_tu : t.startTime + 1/2 ≤ u.startTime := hgap.1 u (by simp)
      have hfirst : applyMinDuration { t with endTime := u.startTime }
          = { t with endTime := u.startTime } := by
        rw [applyMinDuration, if_neg]
        push_neg
        show (1:ℚ)/2 ≤ u.startTime - t.startTime
        linarith
      rw [assignEndTimes, List.chain'_cons']
      refine ⟨?_, assignEndTimes_chain (u :: rest) d hgap.2⟩
      intro b hb
      have hhead := assignEndTimes_head_startTime d u rest
      rw [Option.mem_def] at hb
      rw [hb] at hhead
      simp only [Option.map_some', Option.some.injEq] at hhead
      rw [hfirst, hhead]

theorem pairwise_of_chain_eq :
    ∀ (l : List PlaceholderSegment),
      List.Chain' (fun a b => a.endTime = b.startTime) l →
      (∀ s ∈ l, s.startTime ≤ s.endTime) →
      List.Pairwise (fun a b => a.endTime ≤ b.startTime) l
  | [], _, _ => List.Pairwise.nil
  | a :: l, hchain, hse => by
      rw [List.chain'_cons'] at hchain
      have hrec := pairwise_of_chain_eq l hchain.2
        (fun s hs => hse s (List.mem_cons_of_mem a hs))
      refine List.Pairwise.cons ?_ hrec
      intro b hb
      cases l with
      | nil => simp at hb
      | cons u l' =>
        have hau : a.endTime = u.startTime := hchain.1 u (by simp)
        rcases List.mem_cons.mp hb with rfl | hb'
        · exact le_of_eq hau
        · have hub : u.endTime ≤ b.startTime := (List.pairwise_cons.mp hrec).1 b hb'
          have huse : u.startTime ≤ u.endTime := hse u (by simp)
          linarith

/-- C5 (amended): each placeholder window starts at its trigger's start time
and — whenever consecutive (sorted) triggers are at least 0.5s apart — ends
exactly where the next window starts, so the emitted image windows are
pairwise non-overlapping.  When two triggers are closer than 0.5s the
minimum-duration clamp extends the earlier window past the next trigger's
start, so the windows DO overlap (see the counterexample); exclusivity only
holds under the 0.5s-gap hypothesis. -/
theorem c5_placeholder_exclusivity (triggers : List (ℚ × String × Option String))
    (audioDuration : ℚ)
    (hgap : List.Chain' (fun a b => a.startTime + 1/2 ≤ b.startTime)
      (sortByStart (triggers.map toPlaceholderSegment))) :
    List.Chain' (fun a b => a.endTime = b.startTime)
      (assignEndTimes audioDuration (sortByStart (triggers.map toPlaceholderSegment))) ∧
    List.Pairwise (fun a b => a.endTime ≤ b.startTime)
      (parseImagePlaceholderTimings triggers audioDuration) := by
  have hchain := assignEndTimes_chain _ audioDuration hgap
  refine ⟨hchain, ?_⟩
  exact (pairwise_of_chain_eq _ hchain (assignEndTimes_start_le_end _ audioDuration)).filter _

/-- Well-separated triggers used to witness C5's amended statement. -/
def c5GoodTriggers : List (ℚ × String × Option String) :=
  [(0, "IMAGE_1", some "img1.png"), (1, "IMAGE_2", some "img2.png")]

theorem c5_placeholder_exclusivity_witness :
    List.Chain' (fun a b => a.startTime + 1/2 ≤ b.startTime)
      (sortByStart (c5GoodTriggers.map toPlaceholderSegment)) ∧
    (List.Chain' (fun a b => a.endTime = b.startTime)
      (assignEndTimes 10 (sortByStart (c5GoodTriggers.map toPlaceholderSegment))) ∧
    List.Pairwise (fun a b => a.endTime ≤ b.startTime)
      (parseImagePlaceholderTimings c5GoodTriggers 10)) :=
  ⟨by norm_num [c5GoodTriggers, toPlaceholderSegment, sortByStart, insertByStart,
      List.chain'_cons],
   c5_placeholder_exclusivity c5GoodTriggers 10
     (by norm_num [c5GoodTriggers, toPlaceholderSegment, sortByStart, insertByStart,
       List.chain'_cons])⟩

/-! ## SRT time formatting and parsing (C9)

`formatTime` (video.ts lines 519-525) writes `HH:MM:SS,mmm` with
`Math.floor` on each field; the regex parse used by `parseSubtitleTimings`,
`createAnimatedDrawTextFilters` and `parseImagePlaceholderTimings`
(e.g. lines 546-549) recomputes
`h*3600 + m*60 + s + ms/1000`.  A time line is modelled by its four numeric
fields; the textual round trip through `\d{2}:\d{2}:\d{2},\d{3}` is exact for
times below 100 hours (360000 s), which the hypotheses assume. -/

/-- The four fields of an SRT time stamp. -/
structure SrtTime where
  h : ℕ
  m : ℕ
  s : ℕ
  ms : ℕ
deriving DecidableEq, Repr

/-- JS `x % y` for nonnegative `x` and positive `y` (used by `formatTime`). -/
def jsMod (a b : ℚ) : ℚ := a - b * (⌊a / b⌋ : ℤ)

/-- `formatTime` (video.ts lines 519-525):
`hours = Math.floor(seconds / 3600)`, `minutes = Math.floor((seconds % 3600) / 60)`,
`secs = Math.floor(seconds % 60)`, `milliseconds = Math.floor((seconds % 1) * 1000)`. -/
def formatTime (seconds : ℚ) : SrtTime :=
  { h := (⌊seconds / 3600⌋).toNat
    m := (⌊jsMod seconds 3600 / 60⌋).toNat
    s := (⌊jsMod seconds 60⌋).toNat
    ms := (⌊jsMod seconds 1 * 1000⌋).toNat }

/-- The regex arithmetic of video.ts lines 546-549:
`h*3600 + m*60 + s + ms/1000`. -/
def parseSrtTime (x : SrtTime) : ℚ :=
  (x.h : ℚ) * 3600 + (x.m : ℚ) * 60 + (x.s : ℚ) + (x.ms : ℚ) / 1000

/-- Time fields written by `createDialogueSubtitleFile` (video.ts lines
257-273) for one segment: both endpoints pass through `Math.floor` before
`formatTime`. -/
def dialogueSubtitleTimes (seg : DialogueSegment) : SrtTime × SrtTime :=
  (formatTime ((⌊seg.start⌋ : ℤ) : ℚ), formatTime ((⌊seg.stop⌋ : ℤ) : ℚ))

/-- Time fields written by `createWordByWordSubtitleFile` (video.ts lines
275-297) for one word token: the raw times go straight to `formatTime`. -/
def wordByWordSubtitleTimes (tok : WordToken) : SrtTime × SrtTime :=
  (formatTime tok.start, formatTime tok.stop)

theorem parseSrtTime_formatTime (t : ℚ) (h0 : 0 ≤ t) :
    parseSrtTime (formatTime t) = ((⌊1000 * t⌋ : ℤ) : ℚ) / 1000 := by
  have hfrac0 : (0:ℤ) ≤ ⌊t⌋ := Int.floor_nonneg.mpr h0
  have h60 : (⌊jsMod t 60⌋ : ℤ) = ⌊t⌋ - 60 * ⌊t / 60⌋ := by
    rw [jsMod]
    rw [show t - 60 * (⌊t / 60⌋ : ℤ) = t - ((60 * ⌊t / 60⌋ : ℤ) : ℚ) by push_cast; ring]
    rw [Int.floor_sub_int]
  have h3600 : (⌊jsMod t 3600 / 60⌋ : ℤ) = ⌊t / 60⌋ - 60 * ⌊t / 3600⌋ := by
    rw [jsMod]
    rw [show (t - 3600 * (⌊t / 3600⌋ : ℤ)) / 60 = t / 60 - ((60 * ⌊t / 3600⌋ : ℤ) : ℚ) by
      push_cast; ring]
    rw [Int.floor_sub_int]
  have hms : (⌊jsMod t 1 * 1000⌋ : ℤ) = ⌊1000 * t⌋ - 1000 * ⌊t⌋ := by
    rw [jsMod]
    rw [show (t - 1 * (⌊t / 1⌋ : ℤ)) * 1000 = 1000 * t - ((1000 * ⌊t / 1⌋ : ℤ) : ℚ) by
      push_cast; ring]
    rw [Int.floor_sub_int]
    rw [div_one]
  have hhnn : (0:ℤ) ≤ ⌊t / 3600⌋ := Int.floor_nonneg.mpr (by positivity)
  have hmnn : (0:ℤ) ≤ ⌊t / 60⌋ - 60 * ⌊t / 3600⌋ := by
    have : ((60 * ⌊t / 3600⌋ : ℤ) : ℚ) ≤ t / 60 := by
      have h1 : ((⌊t / 3600⌋ : ℤ) : ℚ) ≤ t / 3600 := Int.floor_le _
      push_cast
      linarith
    have := Int.le_floor.mpr this
    omega
  have hsnn : (0:ℤ) ≤ ⌊t⌋ - 60 * ⌊t / 60⌋ := by
    have : ((60 * ⌊t / 60⌋ : ℤ) : ℚ) ≤ t := by
      have h1 : ((⌊t / 60⌋ : ℤ) : ℚ) ≤ t / 60 := Int.floor_le _
      push_cast
      linarith
    have := Int.le_floor.mpr this
    omega
  have hmsnn : (0:ℤ) ≤ ⌊1000 * t⌋ - 1000 * ⌊t⌋ := by
    have : ((1000 * ⌊t⌋ : ℤ) : ℚ) ≤ 1000 * t := by
      have h1 : ((⌊t⌋ : ℤ) : ℚ) ≤ t := Int.floor_le _
      push_cast
      linarith
    have := Int.le_floor.mpr this
    omega
  have e1 : ((⌊t / 3600⌋.toNat : ℕ) : ℚ) = ((⌊t / 3600⌋ : ℤ) : ℚ) := by
    exact_mod_cast Int.toNat_of_nonneg hhnn
  have e2 : (((⌊t / 60⌋ - 60 * ⌊t / 3600⌋).toNat : ℕ) : ℚ)
      = ((⌊t / 60⌋ - 60 * ⌊t / 3600⌋ : ℤ) : ℚ) := by
    exact_mod_cast Int.toNat_of_nonneg hmnn
  have e3 : (((⌊t⌋ - 60 * ⌊t / 60⌋).toNat : ℕ) : ℚ)
      = ((⌊t⌋ - 60 * ⌊t / 60⌋ : ℤ) : ℚ) := by
    exact_mod_cast Int.toNat_of_nonneg hsnn
  have e4 : (((⌊1000 * t⌋ - 1000 * ⌊t⌋).toNat : ℕ) : ℚ)
      = ((⌊1000 * t⌋ - 1000 * ⌊t⌋ : ℤ) : ℚ) := by
    exact_mod_cast Int.toNat_of_nonneg hmsnn
  show ((⌊t / 3600⌋.toNat : ℕ) : ℚ) * 3600 + ((⌊jsMod t 3600 / 60⌋.toNat : ℕ) : ℚ) * 60
      + ((⌊jsMod t 60⌋.toNat : ℕ) : ℚ) + ((⌊jsMod t 1 * 1000⌋.toNat : ℕ) : ℚ) / 1000
      = ((⌊1000 * t⌋ : ℤ) : ℚ) / 1000
  rw [h60, h3600, hms, e1, e2, e3, e4]
  push_cast
  ring

theorem parseSrtTime_formatTime_int (n : ℤ) (hn : 0 ≤ n) :
    parseSrtTime (formatTime (n : ℚ)) = (n : ℚ) := by
  rw [parseSrtTime_formatTime (n : ℚ) (by exact_mod_cast hn)]
  rw [show (1000 : ℚ) * (n : ℚ) = ((1000 * n : ℤ) : ℚ) by push_cast; ring]
  rw [Int.floor_intCast]
  push_cast
  ring

/-- C9: whole-line subtitle mode truncates each segment endpoint to whole
seconds — the written time stamp parses back to exactly `⌊segment.start⌋` and
`⌊segment.end⌋`, so the displayed window and the character-overlay timings
parsed back from the file lose all sub-second precision — while word-by-word
mode keeps millisecond precision (the stamp parses back to the time truncated
to the millisecond, `⌊1000·t⌋/1000`).  The bounds below 360000 s (100 h) keep
the two-digit-hour textual form exact. -/
theorem c9_whole_second_truncation (seg : DialogueSegment) (tok : WordToken)
    (h1 : 0 ≤ seg.start) (_h2 : seg.start < 360000)
    (h3 : 0 ≤ seg.stop) (_h4 : seg.stop < 360000)
    (h5 : 0 ≤ tok.start) (_h6 : tok.start < 360000)
    (h7 : 0 ≤ tok.stop) (_h8 : tok.stop < 360000) :
    parseSrtTime (dialogueSubtitleTimes seg).1 = ((⌊seg.start⌋ : ℤ) : ℚ) ∧
    parseSrtTime (dialogueSubtitleTimes seg).2 = ((⌊seg.stop⌋ : ℤ) : ℚ) ∧
    parseSrtTime (wordByWordSubtitleTimes tok).1
      = ((⌊1000 * tok.start⌋ : ℤ) : ℚ) / 1000 ∧
    parseSrtTime (wordByWordSubtitleTimes tok).2
      = ((⌊1000 * tok.stop⌋ : ℤ) : ℚ) / 1000 := by
  refine ⟨?_, ?_, ?_, ?_⟩
  · exact parseSrtTime_formatTime_int ⌊seg.start⌋ (Int.floor_nonneg.mpr h1)
  · exact parseSrtTime_formatTime_int ⌊seg.stop⌋ (Int.floor_nonneg.mpr h3)
  · exact parseSrtTime_formatTime tok.start h5
  · exact parseSrtTime_formatTime tok.stop h7

/-- Concrete segment and token with sub-second endpoints, witnessing C9. -/
def c9Seg : DialogueSegment :=
  { start := 3/2, stop := 7/2, speaker := "Peter", text := "hello" }

def c9Tok : WordToken :=
  { start := 1/4, stop := 9/8, text := "hello", speaker := "Peter", imagePlaceholder := none }

theorem c9_whole_second_truncation_witness :
    ((0:ℚ) ≤ c9Seg.start ∧ c9Seg.start < 360000 ∧
     (0:ℚ) ≤ c9Seg.stop ∧ c9Seg.stop < 360000 ∧
     (0:ℚ) ≤ c9Tok.start ∧ c9Tok.start < 360000 ∧
     (0:ℚ) ≤ c9Tok.stop ∧ c9Tok.stop < 360000) ∧
    (parseSrtTime (dialogueSubtitleTimes c9Seg).1 = ((⌊c9Seg.start⌋ : ℤ) : ℚ) ∧
     parseSrtTime (dialogueSubtitleTimes c9Seg).2 = ((⌊c9Seg.stop⌋ : ℤ) : ℚ) ∧
     parseSrtTime (wordByWordSubtitleTimes c9Tok).1
       = ((⌊1000 * c9Tok.start⌋ : ℤ) : ℚ) / 1000 ∧
     parseSrtTime (wordByWordSubtitleTimes c9Tok).2
       = ((⌊1000 * c9Tok.stop⌋ : ℤ) : ℚ) / 1000) :=
  ⟨⟨by norm_num [c9Seg], by norm_num [c9Seg], by norm_num [c9Seg], by norm_num [c9Seg],
    by norm_num [c9Tok], by norm_num [c9Tok], by norm_num [c9Tok], by norm_num [c9Tok]⟩,
   c9_whole_second_truncation c9Seg c9Tok
     (by norm_num [c9Seg]) (by norm_num [c9Seg]) (by norm_num [c9Seg]) (by norm_num [c9Seg])
     (by norm_num [c9Tok]) (by norm_num [c9Tok]) (by norm_num [c9Tok]) (by norm_num [c9Tok])⟩

/-! ## Render invocation and cleanup (C8, C10)

`createVideoFromAudio` and `createVideo` (video.ts lines 48-255) are
IO-heavy: they write/delete files and run subprocesses.  They are embedded
with the filesystem made an explicit value (the set of existing paths) and
the external encoder's behaviour made an oracle:

* `probeSucceeds` — whether `getAudioDuration` on the combined audio succeeds
  (video.ts line 172; strict prober, throws on failure);
* `execSucceeds` — whether the `ffmpeg` render subprocess exits zero
  (line 244; `execAsync` rejects on non-zero exit);
* `outputWritten` — whether the encoder left an output file behind (a failed
  run may still leave a partial file);
* `outputSize` — `fs.statSync(outputPath).size` (line 251);
* `assetsValid` — whether `validateRequiredAssets` passes (lines 160-168);
* `prodCloud` — `NODE_ENV === 'production' && cloudStorage.isConfigured()`
  (line 112), with the upload result abstracted as `cloudUrl`/`cloudPath`.

The whole-line branch's speaker-stripped `_clean.srt` copy (lines 215-228) is
written before the encoder runs and removed by a 1-second timer regardless of
the render outcome; it is modelled as written and then removed around the
encoder call. -/

/-- A filesystem: the list of existing paths. -/
structure FS where
  files : List String
deriving DecidableEq, Repr

/-- `fs.existsSync`. -/
def FS.existsFile (fs : FS) (p : String) : Bool :=
  fs.files.contains p

/-- `fs.writeFileSync` (content is irrelevant to the claims). -/
def FS.write (fs : FS) (p : String) : FS :=
  { files := p :: fs.files }

/-- `fs.unlinkSync` (the sources always guard it with `existsSync`, which has
the same effect as unconditional removal here). -/
def FS.unlink (fs : FS) (p : String) : FS :=
  { files := fs.files.filter (fun q => q ≠ p) }

/-- First-occurrence substring replacement, the semantics of JS
`str.replace(pattern, repl)` with a plain-string pattern; used for the
`audioPath.replace('.mp3', ...)` path derivations. -/
def replaceOnceAux (pat repl : List Char) : List Char → List Char
  | [] => []
  | c :: cs =>
      if (c :: cs).take pat.length = pat then repl ++ (c :: cs).drop pat.length
      else c :: replaceOnceAux pat repl cs

def stringReplaceOnce (s pat repl : String) : String :=
  String.mk (replaceOnceAux pat.toList repl.toList s.toList)

/-- `audioPath.replace('.mp3', '_words.srt')` (video.ts line 78). -/
def wordSrtPathOf (audioPath : String) : String :=
  stringReplaceOnce audioPath ".mp3" "_words.srt"

/-- `audioPath.replace('.mp3', '.srt')` (video.ts line 94). -/
def dialogueSrtPathOf (audioPath : String) : String :=
  stringReplaceOnce audioPath ".mp3" ".srt"

/-- `srtPath.replace('.srt', '_clean.srt')` (video.ts line 215). -/
def cleanSrtPathOf (srtPath : String) : String :=
  stringReplaceOnce srtPath ".srt" "_clean.srt"

/-- JS `String.prototype.includes` on character lists. -/
def listHasInfix (pat : List Char) : List Char → Bool
  | [] => decide (pat = [])
  | c :: cs => decide ((c :: cs).take pat.length = pat) || listHasInfix pat cs

/-- `srtPath.includes('_words.srt')` (video.ts line 181). -/
def strContains (s pat : String) : Bool :=
  listHasInfix pat.toList s.toList

/-- The element type of `subtitleSegments` (video.ts lines 19-24). -/
structure SubtitleSegment where
  start : ℚ
  stop : ℚ
  text : String
  speaker : Option String
deriving DecidableEq, Repr

/-- `VideoGenerationOptions` (video.ts lines 10-17).  An absent optional array
and an empty one behave identically (`x && x.length > 0`), so both are the
empty list; `imagePlaceholderPaths` are the non-empty values of the
`imagePlaceholders` map collected for cleanup (lines 62-68). -/
structure VideoGenerationOptions where
  audioPath : String
  outputPath : String
  subtitleSegments : List SubtitleSegment
  useWordByWordCaptions : Bool
  dialogueSegments : List DialogueSegment
  imagePlaceholderPaths : List String
deriving DecidableEq, Repr

/-- The oracle for one generation request (see the section comment). -/
structure EncoderWorld where
  probeSucceeds : Bool
  execSucceeds : Bool
  outputWritten : Bool
  outputSize : ℕ
  assetsValid : Bool
  prodCloud : Bool
  cloudUrl : String
  cloudPath : String
deriving DecidableEq, Repr

/-- `VideoResponse` (video.ts lines 26-30). -/
structure VideoResponse where
  video_url : String
  file_path : String
  success : Bool
deriving DecidableEq, Repr

/-- `createVideo` (video.ts lines 170-255): probe the combined audio
(strict), build the filter graph (pure string work, no filesystem effect
except the `_clean.srt` copy in whole-line mode), run the encoder, then check
that the output exists and is non-empty. -/
def createVideo (w : EncoderWorld) (srtPath outputPath : String) (fs : FS) :
    FS × Except String Unit :=
  if w.probeSucceeds = false then (fs, Except.error "Failed to get audio duration")
  else
    let isWordByWord := strContains srtPath "_words.srt"
    let fs1 := if isWordByWord then fs else fs.write (cleanSrtPathOf srtPath)
    let fs2 := if w.outputWritten then fs1.write outputPath else fs1
    let fs3 := if isWordByWord then fs2 else fs2.unlink (cleanSrtPathOf srtPath)
    if w.execSucceeds = false then (fs3, Except.error "ffmpeg command failed")
    else if fs3.existsFile outputPath = false then
      (fs3, Except.error "Video file was not created by FFmpeg")
    else if w.outputSize = 0 then (fs3, Except.error "Video file is empty")
    else (fs3, Except.ok ())

/-- `cleanupVideoAssets` (video.ts lines 778-804): delete the audio files and
the placeholder images. -/
def cleanupVideoAssets (audioFiles imageFiles : List String) (fs : FS) : FS :=
  imageFiles.foldl FS.unlink (audioFiles.foldl FS.unlink fs)

/-- `createVideoFromAudio` (video.ts lines 48-158).  Asset validation happens
before the `try`, so its failure performs no cleanup; inside the `try` the
branch on `useWordByWordCaptions` / `subtitleSegments` writes the SRT file,
runs `createVideo` and deletes the SRT only after success; the `catch` block
cleans the audio file and placeholder images and removes a partial output. -/
def createVideoFromAudio (w : EncoderWorld) (options : VideoGenerationOptions) (fs : FS) :
    FS × Except String VideoResponse :=
  if w.assetsValid = false then
    (fs, Except.error ("Audio file not found: " ++ options.audioPath))
  else
    let branch : FS × Except String Unit :=
      if options.useWordByWordCaptions then
        if 0 < options.dialogueSegments.length then
          let srtPath := wordSrtPathOf options.audioPath
          match createVideo w srtPath options.outputPath (fs.write srtPath) with
          | (fs2, Except.ok ()) => (fs2.unlink srtPath, Except.ok ())
          | (fs2, Except.error e) => (fs2, Except.error e)
        else
          (fs, Except.error "Word-by-word captions require dialogue segments with timing information")
      else if 0 < options.subtitleSegments.length then
        let srtPath := dialogueSrtPathOf options.audioPath
        match createVideo w srtPath options.outputPath (fs.write srtPath) with
        | (fs2, Except.ok ()) => (fs2.unlink srtPath, Except.ok ())
        | (fs2, Except.error e) => (fs2, Except.error e)
      else
        (fs, Except.error "Either subtitleSegments or useWordByWordCaptions must be provided")
    match branch with
    | (fs1, Except.ok ()) =>
        let post : FS × String × String :=
          if w.prodCloud then (fs1.unlink options.outputPath, w.cloudUrl, w.cloudPath)
          else (fs1, "/videos/" ++ options.outputPath, options.outputPath)
        let fs3 := cleanupVideoAssets [options.audioPath] options.imagePlaceholderPaths post.1
        (fs3, Except.ok { video_url := post.2.1, file_path := post.2.2, success := true })
    | (fs1, Except.error e) =>
        let fs2 := cleanupVideoAssets [options.audioPath] options.imagePlaceholderPaths fs1
        (fs2.unlink options.outputPath,
          Except.error ("Failed to create video: " ++ e))

theorem fs_write_existsFile (fs : FS) (p q : String) :
    (fs.write p).existsFile q = (if q = p then true else fs.existsFile q) := by
  by_cases h : q = p <;> simp [FS.write, FS.existsFile, List.contains_cons, h]

theorem fs_unlink_existsFile (fs : FS) (p q : String) :
    (fs.unlink p).existsFile q = (if q = p then false else fs.existsFile q) := by
  rw [FS.unlink, FS.existsFile, FS.existsFile]
  simp only
  induction fs.files with
  | nil => simp
  | cons a l ih =>
    simp only [List.filter_cons]
    by_cases hap : a = p
    · rw [if_neg (by simp [hap])]
      rw [ih]
      by_cases hqp : q = p
      · simp [hqp]
      · have hqa : q ≠ a := fun h => hqp (h.trans hap)
        simp [List.contains_cons, hqa, hqp]
    · rw [if_pos (by simp [hap])]
      by_cases hqa : q = a
      · subst hqa
        simp [List.contains_cons, hap]
      · simp only [List.contains_cons]
        rw [ih]
        by_cases hqp : q = p
        · simp [hqp, hqa, Ne.symm hap]
        · simp [hqp, hqa]

theorem fs_write_unlink_existsFile (fs : FS) (p q : String) :
    ((fs.write p).unlink p).existsFile q
      = (if q = p then false else fs.existsFile q) := by
  rw [fs_unlink_existsFile]
  by_cases h : q = p
  · simp [h]
  · simp [h, fs_write_existsFile]

theorem foldl_unlink_existsFile (l : List String) (fs : FS) (p : String) :
    ((l.foldl FS.unlink fs).existsFile p)
      = (if p ∈ l then false else fs.existsFile p) := by
  induction l generalizing fs with
  | nil => simp
  | cons a l ih =>
    rw [List.foldl_cons, ih, fs_unlink_existsFile]
    by_cases hpl : p ∈ l
    · simp [hpl]
    · by_cases hpa : p = a
      · simp [hpa, hpl]
      · simp [hpa, hpl]

theorem cleanup_existsFile (audioFiles imageFiles : List String) (fs : FS) (p : String) :
    (cleanupVideoAssets audioFiles imageFiles fs).existsFile p
      = (if p ∈ audioFiles ∨ p ∈ imageFiles then false else fs.existsFile p) := by
  rw [cleanupVideoAssets, foldl_unlink_existsFile, foldl_unlink_existsFile]
  by_cases h1 : p ∈ audioFiles <;> by_cases h2 : p ∈ imageFiles <;> simp [h1, h2]

@[simp] theorem except_error_isOk {α : Type} (e : String) :
    (Except.error e : Except String α).isOk = false := rfl

@[simp] theorem except_ok_isOk {α : Type} (a : α) :
    (Except.ok a : Except String α).isOk = true := rfl

theorem createVideo_isError (w : EncoderWorld) (s o : String) (f : FS)
    (h : w.probeSucceeds = false ∨ w.execSucceeds = false ∨ w.outputSize = 0 ∨
         (w.outputWritten = false ∧ f.existsFile o = false)) :
    (createVideo w s o f).2.isOk = false := by
  by_cases hp : w.probeSucceeds = false
  · simp [createVideo, hp]
  · by_cases he : w.execSucceeds = false
    · simp [createVideo, hp, he]
    · by_cases hs : w.outputSize = 0
      · simp only [createVideo, if_neg hp, if_neg he, hs]
        repeat' split
        all_goals simp_all
      · rcases h with h | h | h | ⟨hw', hex⟩
        · exact absurd h hp
        · exact absurd h he
        · exact absurd h hs
        · simp only [createVideo, if_neg hp, if_neg he, hw', Bool.false_eq_true, if_false]
          by_cases hwbw : strContains s "_words.srt" = true
          · simp [hwbw, hex]
          · simp only [hwbw, Bool.false_eq_true, if_false, fs_write_unlink_existsFile]
            by_cases hoc : o = cleanSrtPathOf s
            · simp [hoc]
            · simp [hoc, hex]

theorem createVideo_ok (w : EncoderWorld) (s o : String) (f : FS)
    (hp : w.probeSucceeds = true) (he : w.execSucceeds = true)
    (hw' : w.outputWritten = true) (hs : w.outputSize ≠ 0)
    (hc : cleanSrtPathOf s ≠ o) :
    (createVideo w s o f).2 = Except.ok () ∧
    (createVideo w s o f).1.existsFile o = true := by
  have hpn : ¬ (w.probeSucceeds = false) := by simp [hp]
  have hen : ¬ (w.execSucceeds = false) := by simp [he]
  by_cases hwbw : strContains s "_words.srt" = true
  · simp [createVideo, hpn, hen, hwbw, hw', hs, fs_write_existsFile]
  · have hex : (((f.write (cleanSrtPathOf s)).write o).unlink (cleanSrtPathOf s)).existsFile o
        = true := by
      rw [fs_unlink_existsFile, if_neg (Ne.symm hc), fs_write_existsFile]
      simp
    simp [createVideo, hpn, hen, hwbw, hw', hs, hex]

theorem catch_fs_spec (audio out : String) (imgs : List String) (f : FS)
    (hne : audio ≠ out) :
    ((cleanupVideoAssets [audio] imgs f).unlink out).existsFile out = false ∧
    ((cleanupVideoAssets [audio] imgs f).unlink out).existsFile audio = false ∧
    (∀ img ∈ imgs, ((cleanupVideoAssets [audio] imgs f).unlink out).existsFile img = false) := by
  refine ⟨?_, ?_, ?_⟩
  · rw [fs_unlink_existsFile]
    simp
  · rw [fs_unlink_existsFile, if_neg hne, cleanup_existsFile]
    simp
  · intro img hmem
    rw [fs_unlink_existsFile]
    by_cases h : img = out
    · simp [h]
    · rw [if_neg h, cleanup_existsFile]
      simp [hmem]

theorem success_fs_spec (audio out srt : String) (imgs : List String) (f1 : FS)
    (hout : f1.existsFile out = true) (hso : srt ≠ out) (hao : audio ≠ out)
    (hio : out ∉ imgs) :
    (cleanupVideoAssets [audio] imgs (f1.unlink srt)).existsFile out = true ∧
    (cleanupVideoAssets [audio] imgs (f1.unlink srt)).existsFile srt = false ∧
    (cleanupVideoAssets [audio] imgs (f1.unlink srt)).existsFile audio = false ∧
    (∀ img ∈ imgs, (cleanupVideoAssets [audio] imgs (f1.unlink srt)).existsFile img = false) := by
  refine ⟨?_, ?_, ?_, ?_⟩
  · rw [cleanup_existsFile, if_neg (by simp [Ne.symm hao, hio]),
      fs_unlink_existsFile, if_neg (Ne.symm hso)]
    exact hout
  · rw [cleanup_existsFile]
    by_cases h : srt ∈ [audio] ∨ srt ∈ imgs
    · rw [if_pos h]
    · rw [if_neg h, fs_unlink_existsFile]
      simp
  · rw [cleanup_existsFile]
    simp
  · intro img hmem
    rw [cleanup_existsFile]
    simp [hmem]

instance {ε α : Type} [DecidableEq ε] [DecidableEq α] : DecidableEq (Except ε α) := fun x y =>
  match x, y with
  | Except.error a, Except.error b =>
      if h : a = b then isTrue (by rw [h]) else isFalse (fun hh => h (Except.error.inj hh))
  | Except.ok a, Except.ok b =>
      if h : a = b then isTrue (by rw [h]) else isFalse (fun hh => h (Except.ok.inj hh))
  | Except.error _, Except.ok _ => isFalse (fun hh => Except.noConfusion hh)
  | Except.ok _, Except.error _ => isFalse (fun hh => Except.noConfusion hh)

/-- Oracle for the C8 counterexample: the encoder exits non-zero but leaves a
partial output file behind; everything else is healthy. -/
def c8World : EncoderWorld :=
  { probeSucceeds := true, execSucceeds := false, outputWritten := true,
    outputSize := 5, assetsValid := true, prodCloud := false,
    cloudUrl := "", cloudPath := "" }

def c8Options : VideoGenerationOptions :=
  { audioPath := "a.mp3", outputPath := "o.mp4", subtitleSegments := [],
    useWordByWordCaptions := true,
    dialogueSegments := [{ start := 0, stop := 2, speaker := "Peter", text := "hi there" }],
    imagePlaceholderPaths := ["img1.png"] }

def c8FS : FS := { files := ["a.mp3", "img1.png"] }

/-- C8 counterexample: when the encoder exits non-zero the request does fail
and audio, placeholder image and the partial output are removed — but the
word-by-word subtitle file `a_words.srt` is NOT cleaned up on the failure
path (its deletion sits inside the `try` after `createVideo`, video.ts lines
85-87, and the `catch` block never removes it). -/
theorem c8_counterexample :
    (createVideoFromAudio c8World c8Options c8FS).2
      = Except.error "Failed to create video: ffmpeg command failed" ∧
    (createVideoFromAudio c8World c8Options c8FS).1.existsFile (wordSrtPathOf "a.mp3") = true ∧
    (createVideoFromAudio c8World c8Options c8FS).1.existsFile "a.mp3" = false ∧
    (createVideoFromAudio c8World c8Options c8FS).1.existsFile "img1.png" = false := by
  decide

/-- C8 (amended): if the encoder subprocess exits non-zero, or the output file
is missing or zero-byte (or the combined-audio probe fails), the request fails
with an error and the caller gets no response object; the audio file, the
placeholder images and the partial output are removed on the failure path —
but the subtitle file is removed only on the success path (counterexample
above).  On success (in the local-storage configuration) the caller receives
the output path, the output file exists, and audio, subtitle file and
placeholder images are all cleaned up.  The path-distinctness hypotheses say
the derived SRT/clean-SRT paths and the audio/image paths do not collide with
the output path, which holds for the `.mp3`-derived names the service uses. -/
theorem c8_render_failure_atomicity (w : EncoderWorld) (opts : VideoGenerationOptions)
    (fs : FS)
    (hne1 : wordSrtPathOf opts.audioPath ≠ opts.outputPath)
    (hne2 : dialogueSrtPathOf opts.audioPath ≠ opts.outputPath)
    (hne3 : cleanSrtPathOf (wordSrtPathOf opts.audioPath) ≠ opts.outputPath)
    (hne4 : cleanSrtPathOf (dialogueSrtPathOf opts.audioPath) ≠ opts.outputPath)
    (hne5 : opts.audioPath ≠ opts.outputPath)
    (hne6 : opts.outputPath ∉ opts.imagePlaceholderPaths) :
    (w.assetsValid = true →
      (w.probeSucceeds = false ∨ w.execSucceeds = false ∨ w.outputSize = 0 ∨
        (w.outputWritten = false ∧ fs.existsFile opts.outputPath = false)) →
      ((createVideoFromAudio w opts fs).2.isOk = false ∧
       (createVideoFromAudio w opts fs).1.existsFile opts.outputPath = false ∧
       (createVideoFromAudio w opts fs).1.existsFile opts.audioPath = false ∧
       (∀ img ∈ opts.imagePlaceholderPaths,
         (createVideoFromAudio w opts fs).1.existsFile img = false))) ∧
    (w.assetsValid = true → w.probeSucceeds = true → w.execSucceeds = true →
      w.outputWritten = true → w.outputSize ≠ 0 → w.prodCloud = false →
      opts.useWordByWordCaptions = true → 0 < opts.dialogueSegments.length →
      ((createVideoFromAudio w opts fs).2
          = Except.ok { video_url := "/videos/" ++ opts.outputPath,
                        file_path := opts.outputPath, success := true } ∧
       (createVideoFromAudio w opts fs).1.existsFile opts.outputPath = true ∧
       (createVideoFromAudio w opts fs).1.existsFile (wordSrtPathOf opts.audioPath) = false ∧
       (createVideoFromAudio w opts fs).1.existsFile opts.audioPath = false ∧
       (∀ img ∈ opts.imagePlaceholderPaths,
         (createVideoFromAudio w opts fs).1.existsFile img = false))) ∧
    (w.assetsValid = true → w.probeSucceeds = true → w.execSucceeds = true →
      w.outputWritten = true → w.outputSize ≠ 0 → w.prodCloud = false →
      opts.useWordByWordCaptions = false → 0 < opts.subtitleSegments.length →
      ((createVideoFromAudio w opts fs).2
          = Except.ok { video_url := "/videos/" ++ opts.outputPath,
                        file_path := opts.outputPath, success := true } ∧
       (createVideoFromAudio w opts fs).1.existsFile opts.outputPath = true ∧
       (createVideoFromAudio w opts fs).1.existsFile (dialogueSrtPathOf opts.audioPath) = false ∧
       (createVideoFromAudio w opts fs).1.existsFile opts.audioPath = false ∧
       (∀ img ∈ opts.imagePlaceholderPaths,
         (createVideoFromAudio w opts fs).1.existsFile img = false))) := by
  refine ⟨?_, ?_, ?_⟩
  · -- failure path
    intro hav hf
    have havn : ¬ (w.assetsValid = false) := by simp [hav]
    by_cases hwbw : opts.useWordByWordCaptions = true
    · by_cases hdlg : 0 < opts.dialogueSegments.length
      · have herr : (createVideo w (wordSrtPathOf opts.audioPath) opts.outputPath
            (fs.write (wordSrtPathOf opts.audioPath))).2.isOk = false := by
          apply createVideo_isError
          rcases hf with h | h | h | ⟨h1, h2⟩
          · exact Or.inl h
          · exact Or.inr (Or.inl h)
          · exact Or.inr (Or.inr (Or.inl h))
          · refine Or.inr (Or.inr (Or.inr ⟨h1, ?_⟩))
            rw [fs_write_existsFile, if_neg (Ne.symm hne1)]
            exact h2
        rcases hcv : createVideo w (wordSrtPathOf opts.audioPath) opts.outputPath
            (fs.write (wordSrtPathOf opts.audioPath)) with ⟨fs2, r⟩
        cases r with
        | ok u =>
          rw [hcv] at herr
          simp at herr
        | error e =>
          have hres : createVideoFromAudio w opts fs
              = ((cleanupVideoAssets [opts.audioPath] opts.imagePlaceholderPaths fs2).unlink
                  opts.outputPath,
                 Except.error ("Failed to create video: " ++ e)) := by
            simp only [createVideoFromAudio, if_neg havn, hwbw, if_true, if_pos hdlg, hcv]
          rw [hres]
          obtain ⟨ha, hb, hc⟩ := catch_fs_spec opts.audioPath opts.outputPath
            opts.imagePlaceholderPaths fs2 hne5
          exact ⟨by simp, ha, hb, hc⟩
      · have hres : createVideoFromAudio w opts fs
            = ((cleanupVideoAssets [opts.audioPath] opts.imagePlaceholderPaths fs).unlink
                opts.outputPath,
               Except.error ("Failed to create video: " ++
                 "Word-by-word captions require dialogue segments with timing information")) := by
          simp only [createVideoFromAudio, if_neg havn, hwbw, if_true, if_neg hdlg]
        rw [hres]
        obtain ⟨ha, hb, hc⟩ := catch_fs_spec opts.audioPath opts.outputPath
          opts.imagePlaceholderPaths fs hne5
        exact ⟨by simp, ha, hb, hc⟩
    · by_cases hsub : 0 < opts.subtitleSegments.length
      · have herr : (createVideo w (dialogueSrtPathOf opts.audioPath) opts.outputPath
            (fs.write (dialogueSrtPathOf opts.audioPath))).2.isOk = false := by
          apply createVideo_isError
          rcases hf with h | h | h | ⟨h1, h2⟩
          · exact Or.inl h
          · exact Or.inr (Or.inl h)
          · exact Or.inr (Or.inr (Or.inl h))
          · refine Or.inr (Or.inr (Or.inr ⟨h1, ?_⟩))
            rw [fs_write_existsFile, if_neg (Ne.symm hne2)]
            exact h2
        rcases hcv : createVideo w (dialogueSrtPathOf opts.audioPath) opts.outputPath
            (fs.write (dialogueSrtPathOf opts.audioPath)) with ⟨fs2, r⟩
        cases r with
        | ok u =>
          rw [hcv] at herr
          simp at herr
        | error e =>
          have hres : createVideoFromAudio w opts fs
              = ((cleanupVideoAssets [opts.audioPath] opts.imagePlaceholderPaths fs2).unlink
                  opts.outputPath,
                 Except.error ("Failed to create video: " ++ e)) := by
            simp only [createVideoFromAudio, if_neg havn, hwbw, Bool.false_eq_true, if_false,
              if_pos hsub, hcv]
          rw [hres]
          obtain ⟨ha, hb, hc⟩ := catch_fs_spec opts.audioPath opts.outputPath
            opts.imagePlaceholderPaths fs2 hne5
          exact ⟨by simp, ha, hb, hc⟩
      · have hres : createVideoFromAudio w opts fs
            = ((cleanupVideoAssets [opts.audioPath] opts.imagePlaceholderPaths fs).unlink
                opts.outputPath,
               Except.error ("Failed to create video: " ++
                 "Either subtitleSegments or useWordByWordCaptions must be provided")) := by
          simp only [createVideoFromAudio, if_neg havn, hwbw, Bool.false_eq_true, if_false,
            if_neg hsub]
        rw [hres]
        obtain ⟨ha, hb, hc⟩ := catch_fs_spec opts.audioPath opts.outputPath
          opts.imagePlaceholderPaths fs hne5
        exact ⟨by simp, ha, hb, hc⟩
  · -- success path, word-by-word mode
    intro hav hp he how hs hpc hwbw hdlg
    have havn : ¬ (w.assetsValid = false) := by simp [hav]
    have hpcn : ¬ (w.prodCloud = true) := by simp [hpc]
    obtain ⟨hok, hout⟩ := createVideo_ok w (wordSrtPathOf opts.audioPath) opts.outputPath
      (fs.write (wordSrtPathOf opts.audioPath)) hp he how hs hne3
    rcases hcv : createVideo w (wordSrtPathOf opts.audioPath) opts.outputPath
        (fs.write (wordSrtPathOf opts.audioPath)) with ⟨fs2, r⟩
    rw [hcv] at hok hout
    simp only at hok hout
    subst hok
    have hres : createVideoFromAudio w opts fs
        = (cleanupVideoAssets [opts.audioPath] opts.imagePlaceholderPaths
            (fs2.unlink (wordSrtPathOf opts.audioPath)),
           Except.ok { video_url := "/videos/" ++ opts.outputPath,
                       file_path := opts.outputPath, success := true }) := by
      simp only [createVideoFromAudio, if_neg havn, hwbw, if_true, if_pos hdlg, hcv, hpc,
        Bool.false_eq_true, if_false]
    rw [hres]
    obtain ⟨ha, hb, hc, hd⟩ := success_fs_spec opts.audioPath opts.outputPath
      (wordSrtPathOf opts.audioPath) opts.imagePlaceholderPaths fs2 hout hne1 hne5 hne6
    exact ⟨rfl, ha, hb, hc, hd⟩
  · -- success path, whole-line mode
    intro hav hp he how hs hpc hwbw hsub
    have havn : ¬ (w.assetsValid = false) := by simp [hav]
    have hpcn : ¬ (w.prodCloud = true) := by simp [hpc]
    have hwbwn : ¬ (opts.useWordByWordCaptions = true) := by simp [hwbw]
    obtain ⟨hok, hout⟩ := createVideo_ok w (dialogueSrtPathOf opts.audioPath) opts.outputPath
      (fs.write (dialogueSrtPathOf opts.audioPath)) hp he how hs hne4
    rcases hcv : createVideo w (dialogueSrtPathOf opts.audioPath) opts.outputPath
        (fs.write (dialogueSrtPathOf opts.audioPath)) with ⟨fs2, r⟩
    rw [hcv] at hok hout
    simp only at hok hout
    subst hok
    have hres : createVideoFromAudio w opts fs
        = (cleanupVideoAssets [opts.audioPath] opts.imagePlaceholderPaths
            (fs2.unlink (dialogueSrtPathOf opts.audioPath)),
           Except.ok { video_url := "/videos/" ++ opts.outputPath,
                       file_path := opts.outputPath, success := true }) := by
      simp only [createVideoFromAudio, if_neg havn, hwbwn, Bool.false_eq_true, if_false,
        if_pos hsub, hcv, hpc]
    rw [hres]
    obtain ⟨ha, hb, hc, hd⟩ := success_fs_spec opts.audioPath opts.outputPath
      (dialogueSrtPathOf opts.audioPath) opts.imagePlaceholderPaths fs2 hout hne2 hne5 hne6
    exact ⟨rfl, ha, hb, hc, hd⟩

theorem c8_render_failure_atomicity_witness :
    (wordSrtPathOf c8Options.audioPath ≠ c8Options.outputPath ∧
     dialogueSrtPathOf c8Options.audioPath ≠ c8Options.outputPath ∧
     cleanSrtPathOf (wordSrtPathOf c8Options.audioPath) ≠ c8Options.outputPath ∧
     cleanSrtPathOf (dialogueSrtPathOf c8Options.audioPath) ≠ c8Options.outputPath ∧
     c8Options.audioPath ≠ c8Options.outputPath ∧
     c8Options.outputPath ∉ c8Options.imagePlaceholderPaths) ∧
    ((c8World.assetsValid = true →
      (c8World.probeSucceeds = false ∨ c8World.execSucceeds = false ∨ c8World.outputSize = 0 ∨
        (c8World.outputWritten = false ∧ c8FS.existsFile c8Options.outputPath = false)) →
      ((createVideoFromAudio c8World c8Options c8FS).2.isOk = false ∧
       (createVideoFromAudio c8World c8Options c8FS).1.existsFile c8Options.outputPath = false ∧
       (createVideoFromAudio c8World c8Options c8FS).1.existsFile c8Options.audioPath = false ∧
       (∀ img ∈ c8Options.imagePlaceholderPaths,
         (createVideoFromAudio c8World c8Options c8FS).1.existsFile img = false))) ∧
    (c8World.assetsValid = true → c8World.probeSucceeds = true → c8World.execSucceeds = true →
      c8World.outputWritten = true → c8World.outputSize ≠ 0 → c8World.prodCloud = false →
      c8Options.useWordByWordCaptions = true → 0 < c8Options.dialogueSegments.length →
      ((createVideoFromAudio c8World c8Options c8FS).2
          = Except.ok { video_url := "/videos/" ++ c8Options.outputPath,
                        file_path := c8Options.outputPath, success := true } ∧
       (createVideoFromAudio c8World c8Options c8FS).1.existsFile c8Options.outputPath = true ∧
       (createVideoFromAudio c8World c8Options c8FS).1.existsFile
         (wordSrtPathOf c8Options.audioPath) = false ∧
       (createVideoFromAudio c8World c8Options c8FS).1.existsFile c8Options.audioPath = false ∧
       (∀ img ∈ c8Options.imagePlaceholderPaths,
         (createVideoFromAudio c8World c8Options c8FS).1.existsFile img = false))) ∧
    (c8World.assetsValid = true → c8World.probeSucceeds = true → c8World.execSucceeds = true →
      c8World.outputWritten = true → c8World.outputSize ≠ 0 → c8World.prodCloud = false →
      c8Options.useWordByWordCaptions = false → 0 < c8Options.subtitleSegments.length →
      ((createVideoFromAudio c8World c8Options c8FS).2
          = Except.ok { video_url := "/videos/" ++ c8Options.outputPath,
                        file_path := c8Options.outputPath, success := true } ∧
       (createVideoFromAudio c8World c8Options c8FS).1.existsFile c8Options.outputPath = true ∧
       (createVideoFromAudio c8World c8Options c8FS).1.existsFile
         (dialogueSrtPathOf c8Options.audioPath) = false ∧
       (createVideoFromAudio c8World c8Options c8FS).1.existsFile c8Options.audioPath = false ∧
       (∀ img ∈ c8Options.imagePlaceholderPaths,
         (createVideoFromAudio c8World c8Options c8FS).1.existsFile img = false)))) :=
  ⟨⟨by decide, by decide, by decide, by decide, by decide, by decide⟩,
   c8_render_failure_atomicity c8World c8Options c8FS
     (by decide) (by decide) (by decide) (by decide) (by decide) (by decide)⟩

/-- C10: `createVideoFromAudio` fails (and leaves no output file behind when
the asset check passed) whenever `useWordByWordCaptions` is set but
`dialogueSegments` is absent/empty — even when perfectly usable
`subtitleSegments` are present, i.e. there is no silent fallback to
whole-line mode — and likewise when neither `subtitleSegments` nor
`useWordByWordCaptions` is provided. -/
theorem c10_caption_mode_precondition (w : EncoderWorld) (opts : VideoGenerationOptions)
    (fs : FS)
    (h : (opts.useWordByWordCaptions = true ∧ opts.dialogueSegments = []) ∨
         (opts.useWordByWordCaptions = false ∧ opts.subtitleSegments = [])) :
    (createVideoFromAudio w opts fs).2.isOk = false ∧
    (w.assetsValid = true →
      (createVideoFromAudio w opts fs).1.existsFile opts.outputPath = false) := by
  by_cases hav : w.assetsValid = false
  · constructor
    · simp [createVideoFromAudio, hav]
    · intro h'
      rw [h'] at hav
      simp at hav
  · rcases h with ⟨h1, h2⟩ | ⟨h1, h2⟩
    · have hdlg : ¬ (0 < opts.dialogueSegments.length) := by
        rw [h2]
        simp
      have hres : createVideoFromAudio w opts fs
          = ((cleanupVideoAssets [opts.audioPath] opts.imagePlaceholderPaths fs).unlink
              opts.outputPath,
             Except.error ("Failed to create video: " ++
               "Word-by-word captions require dialogue segments with timing information")) := by
        simp only [createVideoFromAudio, if_neg hav, h1, if_true, if_neg hdlg]
      rw [hres]
      exact ⟨by simp, fun _ => by rw [fs_unlink_existsFile]; simp⟩
    · have hsub : ¬ (0 < opts.subtitleSegments.length) := by
        rw [h2]
        simp
      have hres : createVideoFromAudio w opts fs
          = ((cleanupVideoAssets [opts.audioPath] opts.imagePlaceholderPaths fs).unlink
              opts.outputPath,
             Except.error ("Failed to create video: " ++
               "Either subtitleSegments or useWordByWordCaptions must be provided")) := by
        simp only [createVideoFromAudio, if_neg hav, h1, Bool.false_eq_true, if_false,
          if_neg hsub]
      rw [hres]
      exact ⟨by simp, fun _ => by rw [fs_unlink_existsFile]; simp⟩

/-- Options with word-by-word mode on, no dialogue segments, but perfectly
usable whole-line subtitle segments: the request must still fail. -/
def c10Options : VideoGenerationOptions :=
  { audioPath := "b.mp3", outputPath := "v.mp4",
    subtitleSegments := [{ start := 0, stop := 1, text := "hi", speaker := some "Peter" }],
    useWordByWordCaptions := true, dialogueSegments := [], imagePlaceholderPaths := [] }

def c10World : EncoderWorld :=
  { probeSucceeds := true, execSucceeds := true, outputWritten := true,
    outputSize := 9, assetsValid := true, prodCloud := false,
    cloudUrl := "", cloudPath := "" }

def c10FS : FS := { files := ["b.mp3"] }

theorem c10_caption_mode_precondition_witness :
    ((c10Options.useWordByWordCaptions = true ∧ c10Options.dialogueSegments = []) ∨
     (c10Options.useWordByWordCaptions = false ∧ c10Options.subtitleSegments = [])) ∧
    ((createVideoFromAudio c10World c10Options c10FS).2.isOk = false ∧
     (c10World.assetsValid = true →
       (createVideoFromAudio c10World c10Options c10FS).1.existsFile
         c10Options.outputPath = false)) :=
  ⟨Or.inl ⟨rfl, rfl⟩,
   c10_caption_mode_precondition c10World c10Options c10FS (Or.inl ⟨rfl, rfl⟩)⟩
